import Mathlib

/-!
# Verification of the Polaris editor core

A shallow embedding, in Lean 4, of the state-machine core of the Polaris
browser IDE:

* the per-project editor **tab store** (`openFile`, `closeTab`,
  `closeAllTabs`, `setActiveTab`) with its preview/pinned tab logic,
* the CodeMirror-style **suggestion** extension (state field, render
  plugin, Tab accept keymap, and the debounced fetch continuation),
* the **quick-edit** extension (state field, Mod-k keymap, submit
  handler).

Machine integers do not occur in this core; document positions are
modelled as `Nat` offsets into a `String` document, and JavaScript's
`string | null` values as `Option String`.  JavaScript truthiness on
strings (where `""` is falsy) is modelled explicitly where the source
relies on it.
-/

namespace Polaris

/-! ## Tab store (editor tab management store)

Embeds the Zustand store: per-project `TabState` plus the four
operations.  File and project identifiers are abstract types with
decidable equality (the source compares them with `===`). -/

/-- Per-project tab state: `openTabs` in display order, the active tab
(or `none`), and the single preview tab (or `none`). -/
structure TabState (F : Type) where
  openTabs : List F
  activeTabId : Option F
  previewTabId : Option F
deriving DecidableEq

/-- `defaultTabState`: no tabs, no active tab, no preview tab. -/
def defaultTabState {F : Type} : TabState F :=
  { openTabs := [], activeTabId := none, previewTabId := none }

variable {F : Type} [DecidableEq F]

/-- `openFile(projectId, fileId, { pinned })`, acting on one project's
tab state.  Three cases, in source order: preview open of an unopened
file (replacing an existing preview tab in place, else appending),
pinned open of an unopened file (append), and activation of an already
open file (pinning it if it was the preview tab and `pinned` is true). -/
def openFile (f : F) (pinned : Bool) (ts : TabState F) : TabState F :=
  -- CASE 1: not open, not pinned: preview open
  if f ∉ ts.openTabs ∧ ¬ pinned then
    let newTabs :=
      match ts.previewTabId with
      | some pv => ts.openTabs.map (fun id => if id = pv then f else id)
      | none => ts.openTabs ++ [f]
    { openTabs := newTabs, activeTabId := some f, previewTabId := some f }
  -- CASE 2: not open, pinned: append a pinned tab, preview untouched
  else if f ∉ ts.openTabs ∧ pinned then
    { ts with openTabs := ts.openTabs ++ [f], activeTabId := some f }
  -- CASE 3: already open: activate, and pin if it was the preview tab
  else if f ∈ ts.openTabs then
    let shouldPin := pinned ∧ ts.previewTabId = some f
    { ts with
        activeTabId := some f,
        previewTabId := if shouldPin then none else ts.previewTabId }
  else ts

/-- `closeTab(projectId, fileId)`, acting on one project's tab state.
No-op when the file is not open (`indexOf === -1` early return);
otherwise removes the tab, picks a successor for the active tab
(same index, else new last tab, else `none`) and clears the preview
marker when the closed tab was the preview tab. -/
def closeTab (f : F) (ts : TabState F) : TabState F :=
  if f ∈ ts.openTabs then
    let tabIndex := ts.openTabs.indexOf f
    let newTabs := ts.openTabs.filter (fun id => id ≠ f)
    let newActiveTabId : Option F :=
      if ts.activeTabId = some f then
        if newTabs = [] then none
        else if newTabs.length ≤ tabIndex then newTabs[newTabs.length - 1]?
        else newTabs[tabIndex]?
      else ts.activeTabId
    { openTabs := newTabs,
      activeTabId := newActiveTabId,
      previewTabId := if ts.previewTabId = some f then none else ts.previewTabId }
  else ts

/-- `setActiveTab(projectId, fileId)`: sets the active tab with no
membership validation and without touching preview status. -/
def setActiveTab (f : F) (ts : TabState F) : TabState F :=
  { ts with activeTabId := some f }

/-! The store keeps a `Map` from project ids to tab states, read through
`getTabState` with the default state as fallback; a map-with-default is
modelled as a total function from project ids to tab states (the two are
observationally identical through `getTabState`). -/

/-- The store's `tabs` map: project id → tab state (absent ≡ default). -/
def Store (P F : Type) : Type := P → TabState F

/-- The store's initial state: every project at the default tab state. -/
def initStore {P F : Type} : Store P F := fun _ => defaultTabState

/-- `getTabState(projectId)`: read one project's tab state. -/
def getTabState {P F : Type} (s : Store P F) (p : P) : TabState F := s p

/-- `tabs.set(projectId, tabState)` on the map-with-default model. -/
def setTab {P F : Type} [DecidableEq P] (s : Store P F) (p : P)
    (ts : TabState F) : Store P F :=
  fun q => if q = p then ts else s q

/-- One call to a tab-store operation, naming the target project. -/
inductive TabOp (P F : Type) where
  | openFile (p : P) (f : F) (pinned : Bool)
  | closeTab (p : P) (f : F)
  | closeAllTabs (p : P)
  | setActiveTab (p : P) (f : F)

variable {P : Type} [DecidableEq P]

/-- Apply one tab-store operation to the store.  `closeAllTabs` writes
the default tab state for the project, as in the source. -/
def applyOp (op : TabOp P F) (s : Store P F) : Store P F :=
  match op with
  | .openFile p f pinned => setTab s p (openFile f pinned (getTabState s p))
  | .closeTab p f => setTab s p (closeTab f (getTabState s p))
  | .closeAllTabs p => setTab s p defaultTabState
  | .setActiveTab p f => setTab s p (setActiveTab f (getTabState s p))

/-- Run a sequence of tab-store operations from a given store state. -/
def runOps (ops : List (TabOp P F)) (s : Store P F) : Store P F :=
  ops.foldl (fun s op => applyOp op s) s

/-! ### Tab-store invariants -/

/-- The preview-tab invariant: the preview tab, when present, is one of
the open tabs. -/
def PreviewInv (ts : TabState F) : Prop :=
  ∀ f, ts.previewTabId = some f → f ∈ ts.openTabs

/-! Field-level characterizations of the operations, by case. -/

variable {f pv : F} {pinned : Bool} {ts : TabState F}

lemma openFile_mem_openTabs (hopen : f ∈ ts.openTabs) :
    (openFile f pinned ts).openTabs = ts.openTabs := by
  unfold openFile
  rw [if_neg (by simp [hopen]), if_neg (by simp [hopen]), if_pos hopen]

lemma openFile_mem_activeTabId (hopen : f ∈ ts.openTabs) :
    (openFile f pinned ts).activeTabId = some f := by
  unfold openFile
  rw [if_neg (by simp [hopen]), if_neg (by simp [hopen]), if_pos hopen]

lemma openFile_mem_previewTabId (hopen : f ∈ ts.openTabs) :
    (openFile f pinned ts).previewTabId =
      if pinned = true ∧ ts.previewTabId = some f then none
      else ts.previewTabId := by
  unfold openFile
  rw [if_neg (by simp [hopen]), if_neg (by simp [hopen]), if_pos hopen]

lemma openFile_preview_openTabs (hopen : f ∉ ts.openTabs)
    (hpv : ts.previewTabId = some pv) :
    (openFile f false ts).openTabs =
      ts.openTabs.map (fun id => if id = pv then f else id) := by
  unfold openFile
  rw [if_pos ⟨hopen, by simp⟩, hpv]

lemma openFile_preview_none_openTabs (hopen : f ∉ ts.openTabs)
    (hpv : ts.previewTabId = none) :
    (openFile f false ts).openTabs = ts.openTabs ++ [f] := by
  unfold openFile
  rw [if_pos ⟨hopen, by simp⟩, hpv]

lemma openFile_preview_activeTabId (hopen : f ∉ ts.openTabs) :
    (openFile f false ts).activeTabId = some f := by
  unfold openFile
  rw [if_pos ⟨hopen, by simp⟩]

lemma openFile_preview_previewTabId (hopen : f ∉ ts.openTabs) :
    (openFile f false ts).previewTabId = some f := by
  unfold openFile
  rw [if_pos ⟨hopen, by simp⟩]

lemma openFile_pinned_openTabs (hopen : f ∉ ts.openTabs) :
    (openFile f true ts).openTabs = ts.openTabs ++ [f] := by
  unfold openFile
  rw [if_neg (by simp), if_pos ⟨hopen, rfl⟩]

lemma openFile_pinned_activeTabId (hopen : f ∉ ts.openTabs) :
    (openFile f true ts).activeTabId = some f := by
  unfold openFile
  rw [if_neg (by simp), if_pos ⟨hopen, rfl⟩]

lemma openFile_pinned_previewTabId (hopen : f ∉ ts.openTabs) :
    (openFile f true ts).previewTabId = ts.previewTabId := by
  unfold openFile
  rw [if_neg (by simp), if_pos ⟨hopen, rfl⟩]

lemma closeTab_not_mem (hopen : f ∉ ts.openTabs) : closeTab f ts = ts := by
  unfold closeTab
  rw [if_neg hopen]

lemma closeTab_mem_openTabs (hopen : f ∈ ts.openTabs) :
    (closeTab f ts).openTabs = ts.openTabs.filter (fun id => id ≠ f) := by
  unfold closeTab
  rw [if_pos hopen]

lemma closeTab_mem_previewTabId (hopen : f ∈ ts.openTabs) :
    (closeTab f ts).previewTabId =
      if ts.previewTabId = some f then none else ts.previewTabId := by
  unfold closeTab
  rw [if_pos hopen]

lemma closeTab_mem_activeTabId (hopen : f ∈ ts.openTabs) :
    (closeTab f ts).activeTabId =
      if ts.activeTabId = some f then
        if ts.openTabs.filter (fun id => id ≠ f) = [] then none
        else if (ts.openTabs.filter (fun id => id ≠ f)).length ≤
            ts.openTabs.indexOf f then
          (ts.openTabs.filter (fun id => id ≠ f))[(ts.openTabs.filter
            (fun id => id ≠ f)).length - 1]?
        else (ts.openTabs.filter (fun id => id ≠ f))[ts.openTabs.indexOf f]?
      else ts.activeTabId := by
  unfold closeTab
  rw [if_pos hopen]

/-- `openFile` preserves the preview-tab invariant. -/
lemma previewInv_openFile (f : F) (pinned : Bool) {ts : TabState F}
    (h : PreviewInv ts) : PreviewInv (openFile f pinned ts) := by
  intro g hg
  by_cases hopen : f ∈ ts.openTabs
  · -- CASE 3 (already open): tab list unchanged, preview kept or cleared
    rw [openFile_mem_openTabs hopen]
    rw [openFile_mem_previewTabId hopen] at hg
    -- the pin branch is impossible (`none = some g`); split_ifs discharges it
    split_ifs at hg with hpin
    exact h g hg
  · cases pinned with
    | false =>
      -- CASE 1 (preview open): new preview tab is `f`, placed into the tabs
      rw [openFile_preview_previewTabId hopen] at hg
      have hfg : f = g := by simpa using hg
      subst hfg
      cases hpv : ts.previewTabId with
      | some pv0 =>
        rw [openFile_preview_openTabs hopen hpv]
        exact List.mem_map.mpr ⟨pv0, h pv0 hpv, by simp⟩
      | none =>
        rw [openFile_preview_none_openTabs hopen hpv]
        simp
    | true =>
      -- CASE 2 (pinned open): preview unchanged, tab list only grows
      rw [openFile_pinned_previewTabId hopen] at hg
      rw [openFile_pinned_openTabs hopen]
      exact List.mem_append_left _ (h g hg)

/-- `closeTab` preserves the preview-tab invariant. -/
lemma previewInv_closeTab (f : F) {ts : TabState F}
    (h : PreviewInv ts) : PreviewInv (closeTab f ts) := by
  intro g hg
  by_cases hopen : f ∈ ts.openTabs
  · rw [closeTab_mem_openTabs hopen]
    rw [closeTab_mem_previewTabId hopen] at hg
    -- closing the preview tab is impossible here; split_ifs discharges it
    split_ifs at hg with hpv
    have hne : g ≠ f := by
      intro hgf
      exact hpv (by simpa [hgf] using hg)
    simp only [List.mem_filter, decide_eq_true_eq]
    exact ⟨h g hg, hne⟩
  · rw [closeTab_not_mem hopen] at hg ⊢
    exact h g hg

/-- Every tab state a single operation writes satisfies the preview-tab
invariant, provided every project's state did before. -/
lemma previewInv_applyOp (op : TabOp P F) {s : Store P F}
    (h : ∀ p, PreviewInv (s p)) : ∀ p, PreviewInv (applyOp op s p) := by
  intro p
  cases op with
  | openFile q f pinned =>
    simp only [applyOp, setTab]
    split_ifs with hq
    · exact previewInv_openFile f pinned (h q)
    · exact h p
  | closeTab q f =>
    simp only [applyOp, setTab]
    split_ifs with hq
    · exact previewInv_closeTab f (h q)
    · exact h p
  | closeAllTabs q =>
    simp only [applyOp, setTab]
    split_ifs with hq
    · intro g hg; cases hg
    · exact h p
  | setActiveTab q f =>
    simp only [applyOp, setTab]
    split_ifs with hq
    · intro g hg
      exact h q g hg
    · exact h p

/-- The preview-tab invariant holds after any sequence of operations. -/
lemma previewInv_runOps (ops : List (TabOp P F)) {s : Store P F}
    (h : ∀ p, PreviewInv (s p)) : ∀ p, PreviewInv (runOps ops s p) := by
  induction ops generalizing s with
  | nil => exact h
  | cons op ops ih => exact ih (previewInv_applyOp op h)

/-- The active-tab invariant: the active tab, when present, is one of
the open tabs. -/
def ActiveInv (ts : TabState F) : Prop :=
  ∀ f, ts.activeTabId = some f → f ∈ ts.openTabs

/-- `openFile` establishes the active-tab invariant (the file it
activates always ends up among the open tabs); the preview-tab
invariant is needed for the preview-replacement case. -/
lemma activeInv_openFile (f : F) (pinned : Bool) {ts : TabState F}
    (hP : PreviewInv ts) : ActiveInv (openFile f pinned ts) := by
  intro g hg
  by_cases hopen : f ∈ ts.openTabs
  · rw [openFile_mem_activeTabId hopen] at hg
    have hfg : f = g := by simpa using hg
    subst hfg
    rw [openFile_mem_openTabs hopen]
    exact hopen
  · cases pinned with
    | false =>
      rw [openFile_preview_activeTabId hopen] at hg
      have hfg : f = g := by simpa using hg
      subst hfg
      cases hpv : ts.previewTabId with
      | some pv0 =>
        rw [openFile_preview_openTabs hopen hpv]
        exact List.mem_map.mpr ⟨pv0, hP pv0 hpv, by simp⟩
      | none =>
        rw [openFile_preview_none_openTabs hopen hpv]
        simp
    | true =>
      rw [openFile_pinned_activeTabId hopen] at hg
      have hfg : f = g := by simpa using hg
      subst hfg
      rw [openFile_pinned_openTabs hopen]
      simp

/-- `closeTab` preserves the active-tab invariant: the successor it
picks is always drawn from the remaining tabs. -/
lemma activeInv_closeTab (f : F) {ts : TabState F}
    (hA : ActiveInv ts) : ActiveInv (closeTab f ts) := by
  intro g hg
  by_cases hopen : f ∈ ts.openTabs
  · rw [closeTab_mem_openTabs hopen]
    rw [closeTab_mem_activeTabId hopen] at hg
    split_ifs at hg with hact hemp hlast
    · exact List.getElem?_mem hg
    · exact List.getElem?_mem hg
    · have hne : g ≠ f := by
        intro hgf
        exact hact (hgf ▸ hg)
      simp only [List.mem_filter, decide_eq_true_eq]
      exact ⟨hA g hg, hne⟩
  · rw [closeTab_not_mem hopen] at hg ⊢
    exact hA g hg

/-- Guarded reachability for the tab store: all four operations from
the initial store, with `setActiveTab` restricted to files that are
currently among the target project's open tabs (the store itself does
not validate this; the spec flags it as caller responsibility). -/
inductive ReachG {P F : Type} [DecidableEq P] [DecidableEq F] :
    Store P F → Prop
  | init : ReachG initStore
  | openFile {s} (p : P) (f : F) (pinned : Bool) (h : ReachG s) :
      ReachG (applyOp (.openFile p f pinned) s)
  | closeTab {s} (p : P) (f : F) (h : ReachG s) :
      ReachG (applyOp (.closeTab p f) s)
  | closeAllTabs {s} (p : P) (h : ReachG s) :
      ReachG (applyOp (.closeAllTabs p) s)
  | setActiveTab {s} (p : P) (f : F)
      (hmem : f ∈ (getTabState s p).openTabs) (h : ReachG s) :
      ReachG (applyOp (.setActiveTab p f) s)

/-- Along guarded reachability, every project's tab state satisfies
both the active-tab and the preview-tab invariants. -/
lemma reachG_invariants {s : Store P F} (h : ReachG s) :
    ∀ p, ActiveInv (s p) ∧ PreviewInv (s p) := by
  induction h with
  | init =>
    intro p
    constructor
    · intro g hg; cases hg
    · intro g hg; cases hg
  | openFile p f pinned h ih =>
    intro q
    refine ⟨?_, previewInv_applyOp _ (fun r => (ih r).2) q⟩
    simp only [applyOp, setTab]
    split_ifs with hq
    · exact activeInv_openFile f pinned (ih p).2
    · exact (ih q).1
  | closeTab p f h ih =>
    intro q
    refine ⟨?_, previewInv_applyOp _ (fun r => (ih r).2) q⟩
    simp only [applyOp, setTab]
    split_ifs with hq
    · exact activeInv_closeTab f (ih p).1
    · exact (ih q).1
  | closeAllTabs p h ih =>
    intro q
    refine ⟨?_, previewInv_applyOp _ (fun r => (ih r).2) q⟩
    simp only [applyOp, setTab]
    split_ifs with hq
    · intro g hg; cases hg
    · exact (ih q).1
  | setActiveTab p f hmem h ih =>
    intro q
    refine ⟨?_, previewInv_applyOp _ (fun r => (ih r).2) q⟩
    simp only [applyOp, setTab]
    split_ifs with hq
    · intro g hg
      have hfg : f = g := by simpa [setActiveTab] using hg
      subst hfg
      exact hmem
    · exact (ih q).1

/-! ### List helpers describing in-place replacement and removal -/

lemma indexOf_append_middle (l₁ l₂ : List F) (a : F) (h : a ∉ l₁) :
    List.indexOf a (l₁ ++ a :: l₂) = l₁.length := by
  rw [List.indexOf_append_of_not_mem h, List.indexOf_cons_self]
  simp

lemma filter_ne_middle (l₁ l₂ : List F) (a : F) (h1 : a ∉ l₁)
    (h2 : a ∉ l₂) :
    (l₁ ++ a :: l₂).filter (fun id => id ≠ a) = l₁ ++ l₂ := by
  rw [List.filter_append]
  congr 1
  · rw [List.filter_eq_self]
    intro x hx
    simpa using ne_of_mem_of_not_mem hx h1
  · rw [List.filter_cons_of_neg (by simp), List.filter_eq_self]
    intro x hx
    simpa using ne_of_mem_of_not_mem hx h2

lemma map_replace_middle (l₁ l₂ : List F) (a b : F) (h1 : a ∉ l₁)
    (h2 : a ∉ l₂) :
    (l₁ ++ a :: l₂).map (fun id => if id = a then b else id) =
      l₁ ++ b :: l₂ := by
  rw [List.map_append]
  congr 1
  · exact (List.map_congr_left
      (g := id) (fun x hx => if_neg (ne_of_mem_of_not_mem hx h1))).trans
      (List.map_id l₁)
  · rw [List.map_cons, if_pos rfl]
    congr 1
    exact (List.map_congr_left
      (g := id) (fun x hx => if_neg (ne_of_mem_of_not_mem hx h2))).trans
      (List.map_id l₂)

/-! ### Claims C1, C3, C4, C5 -/

/-- **C1**: for every sequence of tab-store operations (`openFile`,
`closeTab`, `closeAllTabs`, `setActiveTab`) starting from the empty
default state, each project's tab state carries at most one preview tab
(`previewTabId` is a single optional field of the per-project state),
and whenever `previewTabId` is non-null it is an element of that
project's `openTabs`. -/
theorem c1_preview_tab_invariant {P F : Type} [DecidableEq P]
    [DecidableEq F] (ops : List (TabOp P F)) (p : P) (f : F)
    (hpv : (getTabState (runOps ops initStore) p).previewTabId = some f) :
    f ∈ (getTabState (runOps ops initStore) p).openTabs := by
  refine previewInv_runOps ops ?_ p f hpv
  intro q g hg
  cases hg

/-- Witness for C1: after previewing file 5 in project 0, the preview
tab is 5 and the theorem places it among the open tabs. -/
theorem c1_preview_tab_invariant_witness :
    5 ∈ (getTabState (runOps [TabOp.openFile 0 5 false] initStore)
          (0 : Nat)).openTabs :=
  c1_preview_tab_invariant [TabOp.openFile (0 : Nat) (5 : Nat) false] 0 5
    (by decide)

/-- **C3** counterexample: the claim's invariant fails on the code.
`setActiveTab` performs no membership validation, so one `setActiveTab`
call from the initial (reachable) store yields a state whose
`activeTabId` is not an element of `openTabs`. -/
theorem c3_counterexample :
    (getTabState (applyOp (TabOp.setActiveTab 0 7) initStore)
        (0 : Nat)).activeTabId = some 7 ∧
    7 ∉ (getTabState (applyOp (TabOp.setActiveTab 0 7) initStore)
        (0 : Nat)).openTabs := by
  decide

/-- **C3** (amended): in every tab state reachable by `openFile`,
`closeTab`, `closeAllTabs`, and `setActiveTab` calls whose file is
currently among the target project's open tabs, a non-null
`activeTabId` is an element of that project's `openTabs`; `setActiveTab`
itself validates nothing and preserves membership only under that
guard. -/
theorem c3_active_member_guarded {P F : Type} [DecidableEq P]
    [DecidableEq F] {s : Store P F} (h : ReachG s) (p : P) (f : F)
    (hact : (getTabState s p).activeTabId = some f) :
    f ∈ (getTabState s p).openTabs :=
  (reachG_invariants h p).1 f hact

/-- Witness for the amended C3: pin-open file 5 in project 0, then
activate it (it is a member); the active tab 5 is among the open tabs. -/
theorem c3_active_member_guarded_witness :
    5 ∈ (getTabState (applyOp (TabOp.setActiveTab 0 5)
          (applyOp (TabOp.openFile 0 5 true) initStore)) (0 : Nat)).openTabs :=
  c3_active_member_guarded
    (ReachG.setActiveTab 0 5 (by decide)
      (ReachG.openFile 0 5 true ReachG.init)) 0 5 (by decide)

/-- **C4**: closing the tab that is currently active picks the
successor the claim describes.  Writing the open tabs as
`l₁ ++ f :: l₂` (so `f` sits at former index `l₁.length`): the closed
tab is removed; if tabs slid in from the right exist (`l₂ ≠ []`), the
tab now occupying the former index (`l₂.head?`) becomes active; if the
closed tab was the last element, the new last tab (`l₁.getLast?`)
becomes active; if no tabs remain this is `none`. -/
theorem c4_closeTab_successor {F : Type} [DecidableEq F]
    (ts : TabState F) (f : F) (l₁ l₂ : List F)
    (hsplit : ts.openTabs = l₁ ++ f :: l₂)
    (h1 : f ∉ l₁) (h2 : f ∉ l₂)
    (hact : ts.activeTabId = some f) :
    (closeTab f ts).openTabs = l₁ ++ l₂ ∧
    (closeTab f ts).activeTabId =
      (if l₂ = [] then l₁.getLast? else l₂.head?) := by
  have hopen : f ∈ ts.openTabs := by
    rw [hsplit]; simp
  have hfilter : ts.openTabs.filter (fun id => id ≠ f) = l₁ ++ l₂ := by
    rw [hsplit]; exact filter_ne_middle l₁ l₂ f h1 h2
  have hidx : ts.openTabs.indexOf f = l₁.length := by
    rw [hsplit]; exact indexOf_append_middle l₁ l₂ f h1
  refine ⟨by rw [closeTab_mem_openTabs hopen, hfilter], ?_⟩
  rw [closeTab_mem_activeTabId hopen, if_pos hact, hfilter, hidx]
  cases l₂ with
  | nil =>
    rw [if_pos rfl]
    cases l₁ with
    | nil => simp
    | cons x l₁' =>
      rw [if_neg (by simp), if_pos (by simp)]
      rw [← List.getLast?_eq_getElem?]
      simp
  | cons x l₂' =>
    rw [if_neg (by simp), if_neg (by simp), if_neg (by simp [Nat.lt_irrefl])]
    rw [List.getElem?_append_right (Nat.le_refl _)]
    simp

/-- Witness for C4 (the spec's example): open tabs `[0, 1, 2]` with `1`
active; closing `1` yields open tabs `[0, 2]` with `2` active. -/
theorem c4_closeTab_successor_witness :
    (closeTab 1 (⟨[0, 1, 2], some 1, none⟩ : TabState Nat)).openTabs
        = [0, 2] ∧
    (closeTab 1 (⟨[0, 1, 2], some 1, none⟩ : TabState Nat)).activeTabId
        = some 2 := by
  have h := c4_closeTab_successor (⟨[0, 1, 2], some 1, none⟩ : TabState Nat)
    1 [0] [2] (by decide) (by decide) (by decide) (by decide)
  exact ⟨h.1, h.2⟩

/-- **C5**: opening an unopened file `b` as preview (`pinned = false`)
while the preview tab `a` exists replaces `a` in place: writing the open
tabs as `l₁ ++ a :: l₂`, the result is `l₁ ++ b :: l₂` (so `b` occupies
`a`'s former index), `a` is removed, the length is unchanged, and both
the active and the preview tab become `b`. -/
theorem c5_preview_replacement {F : Type} [DecidableEq F]
    (ts : TabState F) (a b : F) (l₁ l₂ : List F)
    (hpv : ts.previewTabId = some a)
    (hsplit : ts.openTabs = l₁ ++ a :: l₂)
    (h1 : a ∉ l₁) (h2 : a ∉ l₂)
    (hb : b ∉ ts.openTabs) :
    (openFile b false ts).openTabs = l₁ ++ b :: l₂ ∧
    (openFile b false ts).openTabs.length = ts.openTabs.length ∧
    a ∉ (openFile b false ts).openTabs ∧
    (openFile b false ts).activeTabId = some b ∧
    (openFile b false ts).previewTabId = some b := by
  have hab : a ≠ b := by
    intro h
    exact hb (h ▸ (by rw [hsplit]; simp))
  have htabs : (openFile b false ts).openTabs = l₁ ++ b :: l₂ := by
    rw [openFile_preview_openTabs hb hpv, hsplit]
    exact map_replace_middle l₁ l₂ a b h1 h2
  refine ⟨htabs, ?_, ?_, openFile_preview_activeTabId hb,
    openFile_preview_previewTabId hb⟩
  · rw [htabs, hsplit]; simp
  · rw [htabs]
    simp only [List.mem_append, List.mem_cons]
    push_neg
    exact ⟨h1, hab, h2⟩

/-- Witness for C5: tabs `[1, 2]` with preview tab `2`; previewing the
unopened file `3` yields tabs `[1, 3]` (same length), removes `2`, and
makes `3` both active and the preview tab. -/
theorem c5_preview_replacement_witness :
    (openFile 3 false (⟨[1, 2], some 2, some 2⟩ : TabState Nat)).openTabs
        = [1, 3] ∧
    (openFile 3 false (⟨[1, 2], some 2, some 2⟩ : TabState Nat)).openTabs.length
        = 2 ∧
    2 ∉ (openFile 3 false (⟨[1, 2], some 2, some 2⟩ : TabState Nat)).openTabs ∧
    (openFile 3 false (⟨[1, 2], some 2, some 2⟩ : TabState Nat)).activeTabId
        = some 3 ∧
    (openFile 3 false (⟨[1, 2], some 2, some 2⟩ : TabState Nat)).previewTabId
        = some 3 := by
  have h := c5_preview_replacement (⟨[1, 2], some 2, some 2⟩ : TabState Nat)
    2 3 [1] [] (by decide) (by decide) (by decide) (by decide) (by decide)
  exact h

/-! ## CodeMirror editor model (suggestion and quick-edit extensions)

The document is a sequence of characters (`String`), positions are
character offsets, and the main selection is an anchor/head pair.  The
two extensions contribute a `string | null` state field
(`suggestionState`) and a `boolean` state field (`quickEditState`),
updated through dispatched transactions carrying effects. -/

/-- A CodeMirror selection range: `empty` means `anchor = head`;
`from`/`to` are the ordered endpoints. -/
structure EditorSel where
  anchor : Nat
  head : Nat
deriving DecidableEq

/-- `SelectionRange.from`: the lower endpoint. -/
def EditorSel.fromPos (s : EditorSel) : Nat := min s.anchor s.head

/-- `SelectionRange.to`: the upper endpoint. -/
def EditorSel.toPos (s : EditorSel) : Nat := max s.anchor s.head

/-- The two state effects the extensions define: `setSuggestionEffect`
(carrying `string | null`) and `showQuickEditEffect` (carrying a
boolean). -/
inductive Effect where
  | setSuggestion (v : Option String)
  | showQuickEdit (b : Bool)
deriving DecidableEq

/-- A transaction spec as dispatched in this code base: at most one
change `{from, to, insert}` (with `to` defaulting to `from` for pure
insertions, spelled out explicitly here), an optional explicitly set
selection, and a list of effects. -/
structure Transaction where
  changes : Option (Nat × Nat × String)
  selection : Option EditorSel
  effects : List Effect
deriving DecidableEq

/-- The composed editor state: document, main selection, and the two
extension state fields. -/
structure EditorState where
  doc : String
  sel : EditorSel
  suggestion : Option String
  quickEditActive : Bool
deriving DecidableEq

/-- First `showQuickEditEffect` among a transaction's effects, if any
(the source update loop returns on the first match). -/
def firstShowQuickEdit : List Effect → Option Bool
  | [] => none
  | Effect.showQuickEdit b :: _ => some b
  | _ :: rest => firstShowQuickEdit rest

/-- `suggestionState.update`: the first `setSuggestionEffect` in the
transaction wins; with none present the value is kept. -/
def suggestionUpdate (value : Option String) : List Effect → Option String
  | [] => value
  | Effect.setSuggestion v :: _ => v
  | _ :: rest => suggestionUpdate value rest

/-- `quickEditState.update`: an explicit `showQuickEditEffect` wins;
otherwise, if the transaction sets a selection and that selection is
empty, the state auto-resets to `false` (the safety net against
orphaned tooltips); otherwise the value is kept. -/
def quickEditUpdate (value : Bool) (tr : Transaction) : Bool :=
  match firstShowQuickEdit tr.effects with
  | some b => b
  | none =>
    match tr.selection with
    | some s => if s.anchor = s.head then false else value
    | none => value

/-- Apply one change `{from, to, insert}` to the document: the text
before `from`, then `insert`, then the text from `to` on. -/
def applyChange (doc : String) (f t : Nat) (ins : String) : String :=
  doc.take f ++ ins ++ doc.drop t

/-- Apply a dispatched transaction: update the document by the change
(if any), install the explicitly set selection (if any; every
document-changing dispatch in this code base sets one), and run both
state fields' update functions. -/
def applyTransaction (st : EditorState) (tr : Transaction) : EditorState :=
  { doc :=
      match tr.changes with
      | some (f, t, ins) => applyChange st.doc f t ins
      | none => st.doc
    sel := tr.selection.getD st.sel
    suggestion := suggestionUpdate st.suggestion tr.effects
    quickEditActive := quickEditUpdate st.quickEditActive tr }

/-- The Tab handler of `acceptSuggestionKeymap`: a falsy suggestion
(`null` or `""`, per JavaScript truthiness of `if (!suggestion)`)
returns `false` (unhandled) with nothing dispatched; otherwise one
transaction inserts the suggestion at the cursor, moves the cursor to
the end of the inserted text, and clears the suggestion state, and the
handler returns `true`. -/
def acceptSuggestionRun (st : EditorState) : Bool × EditorState :=
  match st.suggestion with
  | none => (false, st)
  | some s =>
    if s = "" then (false, st)
    else
      let cursor := st.sel.head
      (true, applyTransaction st
        { changes := some (cursor, cursor, s),
          selection := some ⟨cursor + s.length, cursor + s.length⟩,
          effects := [Effect.setSuggestion none] })

/-- One widget decoration: its ghost text, position, and side. -/
structure DecorationSpec where
  text : String
  pos : Nat
  side : Int
deriving DecidableEq

/-- `renderPlugin`'s `build`: no decorations while
`isWaitingForSuggestion` is set, none when the suggestion is falsy
(`null` or `""`); otherwise a single ghost-text widget at the cursor
with `side = 1`. -/
def renderBuild (isWaitingForSuggestion : Bool) (st : EditorState) :
    List DecorationSpec :=
  if isWaitingForSuggestion then []
  else
    match st.suggestion with
    | none => []
    | some s => if s = "" then [] else [⟨s, st.sel.head, 1⟩]

/-- The Mod-k handler of `quickEditKeymap`: with an empty selection it
returns `false` (unhandled) with nothing dispatched; otherwise it
dispatches `showQuickEditEffect.of(true)` and returns `true`. -/
def quickEditKeymapRun (st : EditorState) : Bool × EditorState :=
  if st.sel.anchor = st.sel.head then (false, st)
  else
    (true, applyTransaction st
      { changes := none, selection := none,
        effects := [Effect.showQuickEdit true] })

/-- JavaScript's `String.prototype.trim` (used by the submit handler
on the instruction input): strip leading and trailing whitespace. -/
def jsTrim (s : String) : String :=
  ⟨((s.data.dropWhile Char.isWhitespace).reverse.dropWhile
      Char.isWhitespace).reverse⟩

/-- The quick-edit `form.onsubmit` handler, with the awaited fetch
result passed in as `editedCode`.  A whitespace-only instruction is
rejected up front; a falsy (empty) result only resets the submit
button, leaving the editor state unchanged; a truthy result dispatches
one transaction replacing the selection captured at submission time,
placing the cursor at the end of the replacement, and closing the
session. -/
def quickEditSubmit (st : EditorState) (instruction editedCode : String) :
    EditorState :=
  if jsTrim instruction = "" then st
  else
    let selection := st.sel
    if editedCode = "" then st
    else
      applyTransaction st
        { changes := some (selection.fromPos, selection.toPos, editedCode),
          selection := some ⟨selection.fromPos + editedCode.length,
            selection.fromPos + editedCode.length⟩,
          effects := [Effect.showQuickEdit false] }

/-! ### Suggestion pipeline module state (for C2) -/

/-- The suggestion pipeline's module-level mutable state: the editor it
dispatches into, the `isWaitingForSuggestion` flag, and
`currentAbortController` (`none` = null; `some b` = a controller whose
signal has `aborted = b`). -/
structure SuggestionPipelineState where
  editor : EditorState
  isWaitingForSuggestion : Bool
  currentAborted : Option Bool
deriving DecidableEq

/-- `currentAbortController.abort()` as performed at step 2 of
`triggerSuggestion` when a new qualifying event arrives: the current
controller's signal, if any, becomes aborted, superseding the fetch
that received it. -/
def abortCurrentRequest (ps : SuggestionPipelineState) :
    SuggestionPipelineState :=
  { ps with currentAborted := ps.currentAborted.map (fun _ => true) }

/-- The continuation of `await fetcher(payload, signal)` in
`triggerSuggestion` (step 6), run when that fetch settles with a
resolved value: it clears the waiting flag and dispatches
`setSuggestionEffect.of(result)` unconditionally — the source consults
no abort signal between the `await` and the dispatch. -/
def onSuggestionResolved (ps : SuggestionPipelineState)
    (result : Option String) : SuggestionPipelineState :=
  { ps with
      isWaitingForSuggestion := false,
      editor := applyTransaction ps.editor
        { changes := none, selection := none,
          effects := [Effect.setSuggestion result] } }

/-! ### String helpers for insertion/replacement statements -/

lemma string_take_append (pre suf : String) :
    (pre ++ suf).take pre.length = pre := by
  apply String.ext
  rw [String.data_take, String.data_append]
  have h : pre.length = pre.data.length := rfl
  rw [h, List.take_left]

lemma string_drop_append (pre suf : String) :
    (pre ++ suf).drop pre.length = suf := by
  apply String.ext
  rw [String.data_drop, String.data_append]
  have h : pre.length = pre.data.length := rfl
  rw [h, List.drop_left]

/-! ### Claim C2 -/

/-- **C2** (code bug in the source): an aborted request's resolution
does alter the stored suggestion.  Scenario: the stored suggestion is
`"A"` and a request is in flight; a newer triggering event aborts it
(step 2 of `triggerSuggestion`); the aborted fetch nevertheless
resolves, with `"B"`.  The continuation after the `await` dispatches
the result without consulting the abort signal, so the stored
suggestion becomes `"B"` instead of remaining `"A"` as the claim
requires. -/
theorem c2_aborted_resolution_alters_suggestion :
    (abortCurrentRequest
        ⟨⟨"const x", ⟨7, 7⟩, some "A", false⟩, true, some false⟩).currentAborted
      = some true ∧
    (onSuggestionResolved
        (abortCurrentRequest
          ⟨⟨"const x", ⟨7, 7⟩, some "A", false⟩, true, some false⟩)
        (some "B")).editor.suggestion = some "B" ∧
    (onSuggestionResolved
        (abortCurrentRequest
          ⟨⟨"const x", ⟨7, 7⟩, some "A", false⟩, true, some false⟩)
        (some "B")).editor.suggestion ≠ some "A" := by
  refine ⟨rfl, rfl, ?_⟩
  decide

/-! ### Claim C6: the composed system's transition relation -/

/-- One step of the composed editor system, covering every dispatch
site in the two extensions plus user transactions.  User transactions
(`user`) model clicks, selection changes, and edits that place the
cursor: they carry no extension effects and explicitly set the
resulting selection. -/
inductive EditorStep : EditorState → EditorState → Prop
  | user (st : EditorState) (tr : Transaction)
      (hsel : tr.selection.isSome = true) (heff : tr.effects = []) :
      EditorStep st (applyTransaction st tr)
  | suggestionResolve (st : EditorState) (v : Option String) :
      EditorStep st (applyTransaction st
        { changes := none, selection := none,
          effects := [Effect.setSuggestion v] })
  | acceptKey (st : EditorState) :
      EditorStep st (acceptSuggestionRun st).2
  | quickEditKey (st : EditorState) :
      EditorStep st (quickEditKeymapRun st).2
  | quickEditCancel (st : EditorState) :
      EditorStep st (applyTransaction st
        { changes := none, selection := none,
          effects := [Effect.showQuickEdit false] })
  | quickEditSubmitStep (st : EditorState) (instruction editedCode : String) :
      EditorStep st (quickEditSubmit st instruction editedCode)

/-- Every step preserves "quick-edit active implies non-empty
selection"; in particular a transaction that collapses the selection
while the session is active (the `user` case with an empty explicit
selection) deactivates the session. -/
lemma editorStep_preserves_selection_inv {st st' : EditorState}
    (h : EditorStep st st')
    (hinv : st.quickEditActive = true → st.sel.anchor ≠ st.sel.head) :
    st'.quickEditActive = true → st'.sel.anchor ≠ st'.sel.head := by
  cases h with
  | user tr hsel heff =>
    intro hact
    obtain ⟨s, hs⟩ := Option.isSome_iff_exists.mp hsel
    by_cases hemp : s.anchor = s.head
    · exfalso
      simp [applyTransaction, quickEditUpdate, firstShowQuickEdit, heff, hs,
        hemp] at hact
    · simpa [applyTransaction, hs] using hemp
  | suggestionResolve v =>
    simpa [applyTransaction, quickEditUpdate, firstShowQuickEdit] using hinv
  | acceptKey =>
    cases hsugg : st.suggestion with
    | none => simpa [acceptSuggestionRun, hsugg] using hinv
    | some s =>
      by_cases hse : s = ""
      · simpa [acceptSuggestionRun, hsugg, hse] using hinv
      · intro hact
        exfalso
        simp [acceptSuggestionRun, hsugg, hse, applyTransaction,
          quickEditUpdate, firstShowQuickEdit] at hact
  | quickEditKey =>
    by_cases hemp : st.sel.anchor = st.sel.head
    · simpa [quickEditKeymapRun, hemp] using hinv
    · intro hact
      simp only [quickEditKeymapRun, if_neg hemp, applyTransaction,
        Option.getD_none]
      exact hemp
  | quickEditCancel =>
    intro hact
    exfalso
    simp [applyTransaction, quickEditUpdate, firstShowQuickEdit] at hact
  | quickEditSubmitStep instruction editedCode =>
    by_cases hi : jsTrim instruction = ""
    · simpa [quickEditSubmit, hi] using hinv
    · by_cases he : editedCode = ""
      · simpa [quickEditSubmit, hi, he] using hinv
      · intro hact
        exfalso
        simp [quickEditSubmit, hi, he, applyTransaction, quickEditUpdate,
          firstShowQuickEdit] at hact

/-- **C6**: starting from any state with the quick-edit session
inactive, along every sequence of system steps (extension dispatches
and user transactions that set the selection), a transaction collapsing
the selection to empty while the session is active deactivates it, and
consequently every reachable state with the session active has a
non-empty main selection. -/
theorem c6_quick_edit_selection_invariant (st₀ st : EditorState)
    (h0 : st₀.quickEditActive = false)
    (h : Relation.ReflTransGen EditorStep st₀ st)
    (hact : st.quickEditActive = true) :
    st.sel.anchor ≠ st.sel.head := by
  induction h with
  | refl =>
    rw [h0] at hact
    simp at hact
  | tail hsteps hstep ih =>
    exact editorStep_preserves_selection_inv hstep ih hact

/-- Witness for C6: from document `"ab"` with selection `[0, 2)` and
the session inactive, pressing Mod-k activates the session; the
reachable state has a non-empty selection (`0 ≠ 2`). -/
theorem c6_quick_edit_selection_invariant_witness :
    (quickEditKeymapRun ⟨"ab", ⟨0, 2⟩, none, false⟩).2.sel.anchor ≠
      (quickEditKeymapRun ⟨"ab", ⟨0, 2⟩, none, false⟩).2.sel.head :=
  c6_quick_edit_selection_invariant ⟨"ab", ⟨0, 2⟩, none, false⟩ _
    rfl (Relation.ReflTransGen.single (EditorStep.quickEditKey _)) (by decide)

/-! ### Claims C7, C8, C9, C10 -/

/-- **C7**: with a stored non-empty suggestion `s` and the cursor at
offset `pre.length` of the document `pre ++ suf`, the Tab handler
reports the key handled, inserts exactly `s` at that offset (the
document becomes `pre ++ (s ++ suf)`), leaves the cursor (anchor and
head) at `offset + s.length`, and clears the stored suggestion. -/
theorem c7_accept_inserts_suggestion (st : EditorState) (s pre suf : String)
    (hs : st.suggestion = some s) (hne : s ≠ "")
    (hdoc : st.doc = pre ++ suf) (hcur : st.sel.head = pre.length) :
    (acceptSuggestionRun st).1 = true ∧
    (acceptSuggestionRun st).2.doc = pre ++ (s ++ suf) ∧
    (acceptSuggestionRun st).2.sel.anchor = pre.length + s.length ∧
    (acceptSuggestionRun st).2.sel.head = pre.length + s.length ∧
    (acceptSuggestionRun st).2.suggestion = none := by
  have hrun : acceptSuggestionRun st =
      (true, applyTransaction st
        { changes := some (st.sel.head, st.sel.head, s),
          selection := some ⟨st.sel.head + s.length, st.sel.head + s.length⟩,
          effects := [Effect.setSuggestion none] }) := by
    simp [acceptSuggestionRun, hs, hne]
  rw [hrun]
  refine ⟨rfl, ?_, by simp [applyTransaction, hcur],
    by simp [applyTransaction, hcur], ?_⟩
  · simp only [applyTransaction, applyChange, hdoc, hcur]
    rw [string_take_append, string_drop_append, String.append_assoc]
  · simp [applyTransaction, suggestionUpdate]

/-- Witness for C7 (the spec's example scenario): document
`"const x = 1;"` with the cursor at its end and stored suggestion
`" // declare x"`; Tab yields `"const x = 1; // declare x"`, cursor at
offset 25, suggestion cleared. -/
theorem c7_accept_inserts_suggestion_witness :
    (acceptSuggestionRun
        ⟨"const x = 1;", ⟨12, 12⟩, some " // declare x", false⟩).1 = true ∧
    (acceptSuggestionRun
        ⟨"const x = 1;", ⟨12, 12⟩, some " // declare x", false⟩).2.doc
      = "const x = 1;" ++ (" // declare x" ++ "") ∧
    (acceptSuggestionRun
        ⟨"const x = 1;", ⟨12, 12⟩, some " // declare x", false⟩).2.sel.anchor
      = 25 ∧
    (acceptSuggestionRun
        ⟨"const x = 1;", ⟨12, 12⟩, some " // declare x", false⟩).2.sel.head
      = 25 ∧
    (acceptSuggestionRun
        ⟨"const x = 1;", ⟨12, 12⟩, some " // declare x", false⟩).2.suggestion
      = none :=
  c7_accept_inserts_suggestion
    ⟨"const x = 1;", ⟨12, 12⟩, some " // declare x", false⟩
    " // declare x" "const x = 1;" "" rfl (by decide) (by decide) (by decide)

/-- **C8**: a quick-edit submission with a non-whitespace instruction
that succeeds with a non-empty result `r` replaces exactly the captured
selection range (the `mid` of `pre ++ (mid ++ suf)`) with `r`, places
the cursor (anchor and head) at `from + r.length`, and returns the
session to inactive. -/
theorem c8_quick_edit_replaces_selection (st : EditorState)
    (instruction r pre mid suf : String)
    (hdoc : st.doc = pre ++ (mid ++ suf))
    (hfrom : st.sel.fromPos = pre.length)
    (hto : st.sel.toPos = pre.length + mid.length)
    (hi : jsTrim instruction ≠ "") (hr : r ≠ "") :
    (quickEditSubmit st instruction r).doc = pre ++ (r ++ suf) ∧
    (quickEditSubmit st instruction r).sel.anchor = pre.length + r.length ∧
    (quickEditSubmit st instruction r).sel.head = pre.length + r.length ∧
    (quickEditSubmit st instruction r).quickEditActive = false := by
  have hrun : quickEditSubmit st instruction r =
      applyTransaction st
        { changes := some (st.sel.fromPos, st.sel.toPos, r),
          selection := some ⟨st.sel.fromPos + r.length,
            st.sel.fromPos + r.length⟩,
          effects := [Effect.showQuickEdit false] } := by
    simp [quickEditSubmit, hi, hr]
  rw [hrun]
  refine ⟨?_, by simp [applyTransaction, hfrom],
    by simp [applyTransaction, hfrom], ?_⟩
  · simp only [applyTransaction, applyChange, hdoc, hfrom, hto]
    have hlen : pre.length + mid.length = (pre ++ mid).length := by
      rw [String.length_append]
    rw [string_take_append, hlen, ← String.append_assoc, string_drop_append,
      String.append_assoc]
  · simp [applyTransaction, quickEditUpdate, firstShowQuickEdit]

/-- Witness for C8: document `"abcdef"` with selection `[2, 4)` (the
`"cd"`), an active session, instruction `"fix"`, and result `"XYZ"`;
submission yields `"abXYZef"` with the cursor at offset 5 and the
session inactive. -/
theorem c8_quick_edit_replaces_selection_witness :
    (quickEditSubmit ⟨"abcdef", ⟨2, 4⟩, none, true⟩ "fix" "XYZ").doc
      = "ab" ++ ("XYZ" ++ "ef") ∧
    (quickEditSubmit ⟨"abcdef", ⟨2, 4⟩, none, true⟩ "fix" "XYZ").sel.anchor
      = 5 ∧
    (quickEditSubmit ⟨"abcdef", ⟨2, 4⟩, none, true⟩ "fix" "XYZ").sel.head
      = 5 ∧
    (quickEditSubmit ⟨"abcdef", ⟨2, 4⟩, none, true⟩
        "fix" "XYZ").quickEditActive = false :=
  c8_quick_edit_replaces_selection ⟨"abcdef", ⟨2, 4⟩, none, true⟩
    "fix" "XYZ" "ab" "cd" "ef" (by decide) (by decide) (by decide)
    (by decide) (by decide)

/-- **C9**: each trigger-key handler intercepts its key only under its
precondition and otherwise returns `false` (unhandled) with the state
unchanged: Tab is unhandled whenever no non-empty suggestion is stored
(`null` or `""`), and Mod-k is unhandled whenever the selection is
empty. -/
theorem c9_handlers_defer_without_precondition (st : EditorState) :
    ((st.suggestion = none ∨ st.suggestion = some "") →
      acceptSuggestionRun st = (false, st)) ∧
    (st.sel.anchor = st.sel.head → quickEditKeymapRun st = (false, st)) := by
  constructor
  · rintro (h | h) <;> simp [acceptSuggestionRun, h]
  · intro h
    simp [quickEditKeymapRun, h]

/-- Witness for C9: with no stored suggestion and an empty selection,
both handlers return unhandled and leave the state unchanged. -/
theorem c9_handlers_defer_without_precondition_witness :
    acceptSuggestionRun ⟨"abc", ⟨1, 1⟩, none, false⟩
      = (false, ⟨"abc", ⟨1, 1⟩, none, false⟩) ∧
    quickEditKeymapRun ⟨"abc", ⟨1, 1⟩, none, false⟩
      = (false, ⟨"abc", ⟨1, 1⟩, none, false⟩) :=
  ⟨(c9_handlers_defer_without_precondition _).1 (Or.inl rfl),
    (c9_handlers_defer_without_precondition _).2 rfl⟩

/-- **C10**: a stored empty-string suggestion is indistinguishable from
an absent one at the public interface: the render layer produces no
decoration and the Tab handler returns unhandled with the state
unchanged, exactly as for the corresponding state with a `null`
suggestion. -/
theorem c10_empty_suggestion_like_null (st : EditorState) (w : Bool)
    (h : st.suggestion = some "") :
    renderBuild w st = [] ∧
    renderBuild w { st with suggestion := none } = [] ∧
    acceptSuggestionRun st = (false, st) ∧
    acceptSuggestionRun { st with suggestion := none }
      = (false, { st with suggestion := none }) := by
  refine ⟨?_, ?_, ?_, ?_⟩ <;>
    simp [renderBuild, acceptSuggestionRun, h]

/-- Witness for C10: document `"x"` with stored suggestion `""`: no
decoration is produced and Tab is unhandled, as with no suggestion. -/
theorem c10_empty_suggestion_like_null_witness :
    renderBuild false ⟨"x", ⟨0, 0⟩, some "", false⟩ = [] ∧
    renderBuild false ⟨"x", ⟨0, 0⟩, none, false⟩ = [] ∧
    acceptSuggestionRun ⟨"x", ⟨0, 0⟩, some "", false⟩
      = (false, ⟨"x", ⟨0, 0⟩, some "", false⟩) ∧
    acceptSuggestionRun ⟨"x", ⟨0, 0⟩, none, false⟩
      = (false, ⟨"x", ⟨0, 0⟩, none, false⟩) :=
  c10_empty_suggestion_like_null ⟨"x", ⟨0, 0⟩, some "", false⟩ false rfl

end Polaris
